import Mathlib

/-!
Shallow embedding of the liquidation-dashboard ingestion pipeline of this
repository (src/streamlit_app.py and src/paradex_dashboard.py): the
in-memory deduplicating bounded deque, the SQLite table with its
INSERT OR IGNORE insert, the normalization of raw trade messages into
liquidation records, the statistics computation, and the websocket
connect/reconnect loop as a small-step state machine.

Modelling conventions: event timestamps are naturals (the ISO-8601
strings stored by the code compare lexicographically consistently with
time order), monetary floats are rationals, Python dict.get with a
default is Option.getD, and the SQLite table is a list of rows carrying
the two uniqueness constraints of the schema (PRIMARY KEY id and
UNIQUE (timestamp, symbol, side, value)).
-/

namespace ParadexDash

/-- A liquidation record as built by process_liquidation in both source
files: dict keys id, timestamp, symbol, side, price, quantity, value,
trade_type, time.  The streamlit variant does not set trade_type; it is
simply unused there. -/
structure LiquidationRecord where
  id : String
  timestamp : ℕ
  symbol : String
  side : String
  price : ℚ
  quantity : ℚ
  value : ℚ
  trade_type : String
  time : String
  deriving DecidableEq

/-- The in-memory dedup key (timestamp, symbol, side, value), exactly the
tuple built at src/streamlit_app.py lines 115 and 161. -/
def naturalKey (r : LiquidationRecord) : ℕ × String × String × ℚ :=
  (r.timestamp, r.symbol, r.side, r.value)

/-- MAX_DATA_POINTS = 1000, the deque capacity in both source files. -/
def MAX_DATA_POINTS : ℕ := 1000

/-- The set of natural keys currently in the buffer, as built by the set
comprehension at src/streamlit_app.py line 162 (modelled as a list). -/
def bufferKeys (b : List LiquidationRecord) : List (ℕ × String × String × ℚ) :=
  b.map naturalKey

/-- collections.deque(maxlen = N).append: append at the newest (right)
end, discarding the oldest (leftmost) entry when already at capacity. -/
def dequeAppend (N : ℕ) (b : List LiquidationRecord) (r : LiquidationRecord) :
    List LiquidationRecord :=
  if b.length < N then b ++ [r] else b.drop (b.length + 1 - N) ++ [r]

/-- collections.deque(maxlen = N).appendleft: prepend at the left end,
discarding the rightmost (oldest-inserted) entry when at capacity; used
by src/paradex_dashboard.py line 180. -/
def dequeAppendLeft (N : ℕ) (b : List LiquidationRecord) (r : LiquidationRecord) :
    List LiquidationRecord :=
  if b.length < N then r :: b else r :: b.take (N - 1)

/-- Whether a stored row conflicts with a candidate row under the table
schema of init_db: PRIMARY KEY id, UNIQUE (timestamp, symbol, side,
value). -/
def conflictsWith (r row : LiquidationRecord) : Bool :=
  decide (row.id = r.id ∨
    (row.timestamp = r.timestamp ∧ row.symbol = r.symbol ∧
      row.side = r.side ∧ row.value = r.value))

/-- save_liquidation_to_db: INSERT OR IGNORE appends the row unless it
conflicts with an existing row on either uniqueness constraint, in which
case the statement is a silent no-op. -/
def insertOrIgnore (tbl : List LiquidationRecord) (r : LiquidationRecord) :
    List LiquidationRecord :=
  if tbl.any (conflictsWith r) then tbl else tbl ++ [r]

/-- The buffer component of src/streamlit_app.py process_liquidation
lines 160-165: append only when the natural key is not already in the
buffer. -/
def insertStreamlitBuf (b : List LiquidationRecord) (r : LiquidationRecord) :
    List LiquidationRecord :=
  if naturalKey r ∈ bufferKeys b then b else dequeAppend MAX_DATA_POINTS b r

/-- src/streamlit_app.py process_liquidation lines 160-168 at the record
level: state is (in-memory deque, database table); the Bool reports
whether save_liquidation_to_db was invoked. -/
def processStreamlit (st : List LiquidationRecord × List LiquidationRecord)
    (r : LiquidationRecord) :
    (List LiquidationRecord × List LiquidationRecord) × Bool :=
  if naturalKey r ∈ bufferKeys st.1 then (st, false)
  else ((dequeAppend MAX_DATA_POINTS st.1 r, insertOrIgnore st.2 r), true)

/-- Processing a whole sequence of records through the streamlit
process_liquidation path. -/
def foldProcessStreamlit (st : List LiquidationRecord × List LiquidationRecord)
    (rs : List LiquidationRecord) : List LiquidationRecord × List LiquidationRecord :=
  rs.foldl (fun s r => (processStreamlit s r).1) st

/-- A trades.ALL frame payload as read by src/paradex_dashboard.py
process_liquidation: every field is fetched with dict.get, so every
field is optional. -/
structure TradeMsg where
  id : Option String
  timestamp : Option ℕ
  market : Option String
  side : Option String
  price : Option ℚ
  size : Option ℚ
  trade_type : Option String
  deriving DecidableEq

/-- Python str.upper on ASCII strings, character by character. -/
def pyUpper (s : String) : String := ⟨s.data.map Char.toUpper⟩

/-- src/paradex_dashboard.py process_liquidation lines 163-179: build a
record from the payload when trade_type is "liquidation", otherwise
produce nothing.  dict.get defaults become Option.getD; the wall-clock
display time is the now argument. -/
def processParadexMsg (now : String) (m : TradeMsg) : Option LiquidationRecord :=
  if m.trade_type.getD "" = "liquidation" then
    some { id := m.id.getD ""
           timestamp := m.timestamp.getD 0
           symbol := m.market.getD ""
           side := pyUpper (m.side.getD "")
           price := m.price.getD 0
           quantity := m.size.getD 0
           value := m.price.getD 0 * m.size.getD 0
           trade_type := m.trade_type.getD ""
           time := now }
  else none

/-- src/paradex_dashboard.py process_liquidation lines 163-183 end to
end: on a liquidation message the record is prepended to the deque
(appendleft, no in-memory dedup check) and save_liquidation_to_db is
invoked; the Bool reports whether that store write was issued. -/
def processLiquidationParadex (now : String)
    (st : List LiquidationRecord × List LiquidationRecord) (m : TradeMsg) :
    (List LiquidationRecord × List LiquidationRecord) × Bool :=
  match processParadexMsg now m with
  | none => (st, false)
  | some r => ((dequeAppendLeft MAX_DATA_POINTS st.1 r, insertOrIgnore st.2 r), true)

/-- Recursive core of src/streamlit_app.py deduplicate_liquidations
lines 110-119: the seen set is carried as a list of keys. -/
def dedupSeen (seen : List (ℕ × String × String × ℚ)) :
    List LiquidationRecord → List LiquidationRecord
  | [] => []
  | x :: xs =>
    if naturalKey x ∈ seen then dedupSeen seen xs
    else x :: dedupSeen (naturalKey x :: seen) xs

/-- src/streamlit_app.py deduplicate_liquidations: keep the first
occurrence of each (timestamp, symbol, side, value) key. -/
def deduplicate_liquidations (l : List LiquidationRecord) : List LiquidationRecord :=
  dedupSeen [] l

/-- The ORDER BY timestamp DESC relation of the two load queries. -/
def tsDesc (a b : LiquidationRecord) : Prop := b.timestamp ≤ a.timestamp

instance : DecidableRel tsDesc :=
  fun a b => inferInstanceAs (Decidable (b.timestamp ≤ a.timestamp))

instance : IsTotal LiquidationRecord tsDesc :=
  ⟨fun a b => Or.symm (Nat.le_total a.timestamp b.timestamp)⟩

instance : IsTrans LiquidationRecord tsDesc :=
  ⟨fun _ _ _ hab hbc => Nat.le_trans hbc hab⟩

/-- src/streamlit_app.py load_liquidations_from_db lines 55-87: SELECT
rows WHERE timestamp is at least the cutoff, ORDER BY timestamp DESC,
LIMIT limit; the rows are then iterated in reverse (oldest first) and
passed through deduplicate_liquidations.  In the source the cutoff is
now minus one hour and the limit is MAX_DATA_POINTS. -/
def loadStreamlit (cutoff limit : ℕ) (tbl : List LiquidationRecord) :
    List LiquidationRecord :=
  deduplicate_liquidations
    (((List.insertionSort tsDesc
        (tbl.filter (fun r => decide (cutoff ≤ r.timestamp)))).take limit).reverse)

/-- src/paradex_dashboard.py load_liquidations_from_db lines 71-87:
SELECT * ORDER BY timestamp DESC LIMIT limit, with no time-window filter
and no reversal before the rows are handed to the caller. -/
def loadParadex (limit : ℕ) (tbl : List LiquidationRecord) :
    List LiquidationRecord :=
  (List.insertionSort tsDesc tbl).take limit

/-- Distinct values in first-appearance order, as pandas groups values
before counting them. -/
def distinctInOrder (l : List String) : List String :=
  l.foldl (fun acc s => if s ∈ acc then acc else acc ++ [s]) []

/-- Descending order on occurrence counts, for the value_counts sort. -/
def cntDesc (a b : String × ℕ) : Prop := b.2 ≤ a.2

instance : DecidableRel cntDesc :=
  fun a b => inferInstanceAs (Decidable (b.2 ≤ a.2))

/-- df.value_counts over the symbol column: pair each distinct symbol
with its number of occurrences and sort by count, descending. -/
def symbolValueCounts (l : List LiquidationRecord) : List (String × ℕ) :=
  List.insertionSort cntDesc
    ((distinctInOrder (l.map (fun r => r.symbol))).map
      (fun s => (s, (l.map (fun r => r.symbol)).count s)))

/-- One lookup in the side value_counts dict built at
src/paradex_dashboard.py line 214 (dict.get with default 0 is the count,
0 when the side never occurs). -/
def sideValueCount (l : List LiquidationRecord) (s : String) : ℕ :=
  l.countP (fun r => decide (r.side = s))

/-- The dict returned by src/paradex_dashboard.py calculate_stats. -/
structure Stats where
  total_liquidations : ℕ
  total_volume : ℚ
  avg_size : ℚ
  longs : ℕ
  shorts : ℕ
  top_pairs : List (String × ℕ)
  deriving DecidableEq

/-- src/paradex_dashboard.py calculate_stats lines 198-226: zeros on an
empty frame; otherwise count, summed value, mean value, the LONG and
SHORT side counts, and the five most frequent symbols by trade count. -/
def calculate_stats (l : List LiquidationRecord) : Stats :=
  if l.isEmpty then
    { total_liquidations := 0
      total_volume := 0
      avg_size := 0
      longs := 0
      shorts := 0
      top_pairs := [] }
  else
    { total_liquidations := l.length
      total_volume := (l.map (fun r => r.value)).sum
      avg_size := (l.map (fun r => r.value)).sum / (l.length : ℚ)
      longs := sideValueCount l "LONG"
      shorts := sideValueCount l "SHORT"
      top_pairs := (symbolValueCounts l).take 5 }

/-- Program points of the paradex_websocket loop,
src/paradex_dashboard.py lines 113-159. -/
inductive WSPoint
  | loopTop
  | connecting
  | streaming
  | backoff
  deriving DecidableEq

/-- Observable state of the stream client: current program point, the
global _connection_status flag, and whether a websocket connection is
actually established. -/
structure WSState where
  point : WSPoint
  flag : Bool
  connected : Bool
  deriving DecidableEq

/-- Small-step transitions of paradex_websocket: set_connection_status
(True) runs at the top of the try block, BEFORE websockets.connect; both
except branches run set_connection_status(False) and sleep before
looping. -/
inductive WSStep : WSState → WSState → Prop
  | toConnecting (f c : Bool) :
      WSStep ⟨WSPoint.loopTop, f, c⟩ ⟨WSPoint.connecting, true, c⟩
  | connectOk (f c : Bool) :
      WSStep ⟨WSPoint.connecting, f, c⟩ ⟨WSPoint.streaming, f, true⟩
  | connectFail (f c : Bool) :
      WSStep ⟨WSPoint.connecting, f, c⟩ ⟨WSPoint.backoff, false, false⟩
  | recvOk (f c : Bool) :
      WSStep ⟨WSPoint.streaming, f, c⟩ ⟨WSPoint.streaming, f, c⟩
  | recvFail (f c : Bool) :
      WSStep ⟨WSPoint.streaming, f, c⟩ ⟨WSPoint.backoff, false, false⟩
  | wake (f c : Bool) :
      WSStep ⟨WSPoint.backoff, f, c⟩ ⟨WSPoint.loopTop, f, c⟩

/-- Initial state: about to enter the while loop, flag false (module
initialization sets connected to False), no connection. -/
def wsInit : WSState := ⟨WSPoint.loopTop, false, false⟩

/-- States the stream client can actually be in. -/
def WSReachable (s : WSState) : Prop := Relation.ReflTransGen WSStep wsInit s

/-! Concrete inputs used by counterexamples and witnesses. -/

/-- A liquidation trades.ALL payload, all fields present. -/
def msgLiqSample : TradeMsg :=
  { id := some "trade1"
    timestamp := some 5
    market := some "BTC-USD"
    side := some "buy"
    price := some 10
    size := some 2
    trade_type := some "liquidation" }

/-- A record sitting in the streamlit buffer. -/
def recInBuf : LiquidationRecord :=
  { id := "w1"
    timestamp := 3
    symbol := "ETH-USD"
    side := "BUY"
    price := 5
    quantity := 1
    value := 5
    trade_type := ""
    time := "t" }

/-- A fresh record for the capacity-invariant witness. -/
def recC2 : LiquidationRecord :=
  { id := "w2"
    timestamp := 4
    symbol := "SOL-USD"
    side := "SELL"
    price := 2
    quantity := 3
    value := 6
    trade_type := ""
    time := "t" }

/-- A record for the store round-trip witness. -/
def recC4 : LiquidationRecord :=
  { id := "w4"
    timestamp := 9
    symbol := "BTC-USD"
    side := "BUY"
    price := 7
    quantity := 2
    value := 14
    trade_type := ""
    time := "t" }

/-- A stored row two hours old (timestamp 0). -/
def rOld5 : LiquidationRecord :=
  { id := "old"
    timestamp := 0
    symbol := "BTC-USD"
    side := "SELL"
    price := 1
    quantity := 1
    value := 1
    trade_type := ""
    time := "t" }

/-- A freshly stored row (timestamp 5000). -/
def rNew5 : LiquidationRecord :=
  { id := "new"
    timestamp := 5000
    symbol := "BTC-USD"
    side := "BUY"
    price := 1
    quantity := 1
    value := 1
    trade_type := ""
    time := "t" }

/-- A liquidation-typed payload whose price field is absent. -/
def msgNoPrice : TradeMsg :=
  { id := some "x1"
    timestamp := some 7
    market := some "BTC-USD"
    side := some "buy"
    price := none
    size := some 2
    trade_type := some "liquidation" }

/-- A liquidation-typed payload with all fields, for the C6 witness. -/
def msgC6w : TradeMsg :=
  { id := some "w6"
    timestamp := some 8
    market := some "ETH-USD"
    side := some "sell"
    price := some 7
    size := some 2
    trade_type := some "liquidation" }

/-- First of two payloads agreeing on (timestamp, market, side, price,
size) but with different feed ids. -/
def msgC7a : TradeMsg :=
  { id := some "feedA"
    timestamp := some 9
    market := some "BTC-USD"
    side := some "buy"
    price := some 10
    size := some 3
    trade_type := some "liquidation" }

/-- Second payload: identical to msgC7a except for the feed id. -/
def msgC7b : TradeMsg :=
  { id := some "feedB"
    timestamp := some 9
    market := some "BTC-USD"
    side := some "buy"
    price := some 10
    size := some 3
    trade_type := some "liquidation" }

/-- The record produced from msgC7a. -/
def recC7w : LiquidationRecord :=
  { id := "feedA"
    timestamp := 9
    symbol := "BTC-USD"
    side := "BUY"
    price := 10
    quantity := 3
    value := 30
    trade_type := "liquidation"
    time := "s" }

/-- (BTC-USD, BUY, value 100) of the stats scenario. -/
def recBTCbuy3 : LiquidationRecord :=
  { id := "s1"
    timestamp := 1
    symbol := "BTC-USD"
    side := "BUY"
    price := 100
    quantity := 1
    value := 100
    trade_type := ""
    time := "t" }

/-- (BTC-USD, SELL, value 50) of the stats scenario. -/
def recBTCsell3 : LiquidationRecord :=
  { id := "s2"
    timestamp := 2
    symbol := "BTC-USD"
    side := "SELL"
    price := 50
    quantity := 1
    value := 50
    trade_type := ""
    time := "t" }

/-- (ETH-USD, BUY, value 200) of the stats scenario. -/
def recETHbuy3 : LiquidationRecord :=
  { id := "s3"
    timestamp := 3
    symbol := "ETH-USD"
    side := "BUY"
    price := 200
    quantity := 1
    value := 200
    trade_type := ""
    time := "t" }

/-- The three-record snapshot of the stats scenario. -/
def threeSnapshot : List LiquidationRecord := [recBTCbuy3, recBTCsell3, recETHbuy3]

/-- A record for the average-value witness. -/
def recC8 : LiquidationRecord :=
  { id := "w8"
    timestamp := 6
    symbol := "BTC-USD"
    side := "SELL"
    price := 4
    quantity := 1
    value := 4
    trade_type := ""
    time := "t" }

/-! Helper lemmas about deduplicate_liquidations. -/

theorem dedupSeen_sublist :
    ∀ (l : List LiquidationRecord) (seen : List (ℕ × String × String × ℚ)),
      List.Sublist (dedupSeen seen l) l := by
  intro l
  induction l with
  | nil => intro seen; simp [dedupSeen]
  | cons x xs ih =>
    intro seen
    by_cases h : naturalKey x ∈ seen
    · simp only [dedupSeen, if_pos h]
      exact List.Sublist.cons x (ih seen)
    · simp only [dedupSeen, if_neg h]
      exact List.Sublist.cons₂ x (ih (naturalKey x :: seen))

theorem mem_keys_dedupSeen :
    ∀ (l : List LiquidationRecord) (seen : List (ℕ × String × String × ℚ))
      (k : ℕ × String × String × ℚ),
      k ∈ (dedupSeen seen l).map naturalKey → k ∉ seen := by
  intro l
  induction l with
  | nil => intro seen k h; simp [dedupSeen] at h
  | cons x xs ih =>
    intro seen k h
    by_cases hx : naturalKey x ∈ seen
    · rw [dedupSeen, if_pos hx] at h
      exact ih seen k h
    · rw [dedupSeen, if_neg hx] at h
      rcases List.mem_map.mp h with ⟨y, hy, hyk⟩
      rcases List.mem_cons.mp hy with rfl | hy2
      · rw [← hyk]; exact hx
      · have := ih (naturalKey x :: seen) k (List.mem_map.mpr ⟨y, hy2, hyk⟩)
        intro hk
        exact this (List.mem_cons_of_mem _ hk)

theorem nodup_keys_dedupSeen :
    ∀ (l : List LiquidationRecord) (seen : List (ℕ × String × String × ℚ)),
      ((dedupSeen seen l).map naturalKey).Nodup := by
  intro l
  induction l with
  | nil => intro seen; simp [dedupSeen]
  | cons x xs ih =>
    intro seen
    by_cases hx : naturalKey x ∈ seen
    · rw [dedupSeen, if_pos hx]; exact ih seen
    · rw [dedupSeen, if_neg hx]
      rw [List.map_cons, List.nodup_cons]
      refine ⟨fun hmem => ?_, ih (naturalKey x :: seen)⟩
      exact mem_keys_dedupSeen xs (naturalKey x :: seen) (naturalKey x) hmem
        (List.mem_cons_self _ _)

theorem dedupSeen_find? :
    ∀ (l : List LiquidationRecord) (seen : List (ℕ × String × String × ℚ))
      (k : ℕ × String × String × ℚ), k ∉ seen →
      (dedupSeen seen l).find? (fun x => decide (naturalKey x = k))
        = l.find? (fun x => decide (naturalKey x = k)) := by
  intro l
  induction l with
  | nil => intro seen k _; rfl
  | cons x xs ih =>
    intro seen k hk
    by_cases hx : naturalKey x ∈ seen
    · rw [dedupSeen, if_pos hx]
      have hne : ¬ (naturalKey x = k) := fun he => hk (he ▸ hx)
      rw [List.find?_cons_of_neg _ (by simpa using hne)]
      exact ih seen k hk
    · rw [dedupSeen, if_neg hx]
      by_cases hxk : naturalKey x = k
      · rw [List.find?_cons_of_pos _ (by simpa using hxk),
          List.find?_cons_of_pos _ (by simpa using hxk)]
      · rw [List.find?_cons_of_neg _ (by simpa using hxk),
          List.find?_cons_of_neg _ (by simpa using hxk)]
        refine ih (naturalKey x :: seen) k ?_
        intro hmem
        rcases List.mem_cons.mp hmem with he | he
        · exact hxk he.symm
        · exact hk he

theorem dedupSeen_idem :
    ∀ (l : List LiquidationRecord) (seen : List (ℕ × String × String × ℚ)),
      dedupSeen seen (dedupSeen seen l) = dedupSeen seen l := by
  intro l
  induction l with
  | nil => intro seen; rfl
  | cons x xs ih =>
    intro seen
    by_cases hx : naturalKey x ∈ seen
    · rw [dedupSeen, if_pos hx]; exact ih seen
    · rw [dedupSeen, if_neg hx]
      conv_lhs => rw [dedupSeen, if_neg hx]
      rw [ih (naturalKey x :: seen)]

/-- Claim C10: deduplicate_liquidations returns the subsequence of first
occurrences of each (timestamp, symbol, side, value) key in original
relative order, and is idempotent.  Formalized as: the result is a
sublist of the input (relative order preserved), its keys are pairwise
distinct, for every key the first matching element of the result is the
first matching element of the input, and applying the function twice
equals applying it once. -/
theorem c10_dedup_first_occurrence :
    ∀ l : List LiquidationRecord,
      List.Sublist (deduplicate_liquidations l) l
      ∧ ((deduplicate_liquidations l).map naturalKey).Nodup
      ∧ (∀ k, (deduplicate_liquidations l).find? (fun x => decide (naturalKey x = k))
          = l.find? (fun x => decide (naturalKey x = k)))
      ∧ deduplicate_liquidations (deduplicate_liquidations l) = deduplicate_liquidations l := by
  intro l
  exact ⟨dedupSeen_sublist l [], nodup_keys_dedupSeen l [],
    fun k => dedupSeen_find? l [] k (by simp),
    dedupSeen_idem l []⟩

/-! Helper lemmas about the bounded deque and the streamlit insert. -/

theorem length_dequeAppend (N : ℕ) (b : List LiquidationRecord)
    (r : LiquidationRecord) (hN : 0 < N) (hb : b.length ≤ N) :
    (dequeAppend N b r).length ≤ N := by
  unfold dequeAppend
  split
  · next h => simp only [List.length_append, List.length_singleton]; omega
  · next h =>
    simp only [List.length_append, List.length_singleton, List.length_drop]
    omega

theorem foldl_dequeAppend (N : ℕ) (hN : 0 < N) :
    ∀ (xs b : List LiquidationRecord), b.length ≤ N →
      xs.foldl (dequeAppend N) b = (b ++ xs).drop ((b ++ xs).length - N) := by
  intro xs
  induction xs with
  | nil =>
    intro b hb
    simp [Nat.sub_eq_zero_of_le hb]
  | cons x xs ih =>
    intro b hb
    rw [List.foldl_cons]
    by_cases h : b.length < N
    · have h1 : dequeAppend N b x = b ++ [x] := by rw [dequeAppend, if_pos h]
      rw [h1, ih (b ++ [x]) (by simp only [List.length_append, List.length_singleton]; omega)]
      rw [List.append_assoc, List.singleton_append]
    · have hbN : b.length = N := le_antisymm hb (Nat.le_of_not_lt h)
      have h1 : dequeAppend N b x = b.drop 1 ++ [x] := by
        rw [dequeAppend, if_neg h, hbN, Nat.add_sub_cancel_left]
      rw [h1, ih (b.drop 1 ++ [x])
        (by simp only [List.length_append, List.length_singleton, List.length_drop]; omega)]
      have e1 : b.drop 1 ++ [x] ++ xs = (b ++ x :: xs).drop 1 := by
        rw [List.drop_append_eq_append_drop]
        have : 1 - b.length = 0 := by omega
        rw [this, List.drop_zero, List.append_assoc, List.singleton_append]
      rw [e1, List.drop_drop]
      congr 1
      simp only [List.length_drop, List.length_append, List.length_cons]
      omega

theorem bufferKeys_dequeAppend_subset (N : ℕ) (b : List LiquidationRecord)
    (r : LiquidationRecord) :
    bufferKeys (dequeAppend N b r) ⊆ bufferKeys b ++ [naturalKey r] := by
  unfold dequeAppend bufferKeys
  split
  · rw [List.map_append, List.map_singleton]
    exact List.Subset.refl _
  · rw [List.map_append, List.map_singleton]
    intro k hk
    rcases List.mem_append.mp hk with hk | hk
    · rw [List.map_drop] at hk
      exact List.mem_append_left _ (List.drop_subset _ _ hk)
    · exact List.mem_append_right _ hk

theorem nodup_bufferKeys_insert (b : List LiquidationRecord)
    (r : LiquidationRecord) (h : (bufferKeys b).Nodup) :
    (bufferKeys (insertStreamlitBuf b r)).Nodup := by
  unfold insertStreamlitBuf
  split
  · exact h
  · next hmem =>
    unfold dequeAppend bufferKeys
    split
    · rw [List.map_append, List.map_singleton]
      refine List.Nodup.append h (List.nodup_singleton _) ?_
      rw [List.disjoint_singleton]
      exact hmem
    · rw [List.map_append, List.map_singleton, List.map_drop]
      refine List.Nodup.append (h.sublist (List.drop_sublist _ _)) (List.nodup_singleton _) ?_
      rw [List.disjoint_singleton]
      intro hc
      exact hmem (List.drop_subset _ _ hc)

theorem length_insertStreamlitBuf (b : List LiquidationRecord)
    (r : LiquidationRecord) (hb : b.length ≤ MAX_DATA_POINTS) :
    (insertStreamlitBuf b r).length ≤ MAX_DATA_POINTS := by
  unfold insertStreamlitBuf
  split
  · exact hb
  · exact length_dequeAppend _ _ _ (by decide) hb

theorem length_foldl_insertStreamlit :
    ∀ (rs b : List LiquidationRecord), b.length ≤ MAX_DATA_POINTS →
      (rs.foldl insertStreamlitBuf b).length ≤ MAX_DATA_POINTS := by
  intro rs
  induction rs with
  | nil => intro b hb; exact hb
  | cons x xs ih =>
    intro b hb
    rw [List.foldl_cons]
    exact ih _ (length_insertStreamlitBuf b x hb)

theorem foldl_insert_eq_dequeAppend :
    ∀ (rs b : List LiquidationRecord), (rs.map naturalKey).Nodup →
      (∀ k ∈ rs.map naturalKey, k ∉ bufferKeys b) →
      rs.foldl insertStreamlitBuf b = rs.foldl (dequeAppend MAX_DATA_POINTS) b := by
  intro rs
  induction rs with
  | nil => intro b _ _; rfl
  | cons x xs ih =>
    intro b hnd hfresh
    have hx : naturalKey x ∉ bufferKeys b :=
      hfresh (naturalKey x) (by simp)
    have hstep : insertStreamlitBuf b x = dequeAppend MAX_DATA_POINTS b x := by
      rw [insertStreamlitBuf, if_neg hx]
    rw [List.foldl_cons, List.foldl_cons, hstep]
    rw [List.map_cons, List.nodup_cons] at hnd
    refine ih (dequeAppend MAX_DATA_POINTS b x) hnd.2 ?_
    intro k hk hmem
    rcases List.mem_append.mp (bufferKeys_dequeAppend_subset MAX_DATA_POINTS b x hmem) with hc | hc
    · exact hfresh k (List.mem_cons_of_mem _ hk) hc
    · rw [List.mem_singleton] at hc
      exact hnd.1 (hc ▸ hk)

theorem dequeAppendLeft_eq_take (N : ℕ) (b : List LiquidationRecord)
    (r : LiquidationRecord) (hN : 0 < N) :
    dequeAppendLeft N b r = (r :: b).take N := by
  obtain ⟨m, rfl⟩ : ∃ m, N = m + 1 := ⟨N - 1, by omega⟩
  unfold dequeAppendLeft
  split
  · next h =>
    rw [List.take_of_length_le]
    simp only [List.length_cons]
    omega
  · rw [List.take_succ_cons, Nat.add_sub_cancel]

theorem take_append_take (l m : List LiquidationRecord) (n : ℕ) :
    (l ++ m.take n).take n = (l ++ m).take n := by
  rw [List.take_append_eq_append_take, List.take_append_eq_append_take, List.take_take,
    Nat.min_eq_left (Nat.sub_le n l.length)]

theorem foldl_dequeAppendLeft (N : ℕ) (hN : 0 < N) :
    ∀ (xs b : List LiquidationRecord), b.length ≤ N →
      xs.foldl (dequeAppendLeft N) b = (xs.reverse ++ b).take N := by
  intro xs
  induction xs with
  | nil =>
    intro b hb
    rw [List.foldl_nil, List.reverse_nil, List.nil_append, List.take_of_length_le hb]
  | cons x xs ih =>
    intro b hb
    rw [List.foldl_cons, dequeAppendLeft_eq_take N b x hN]
    have hlen : ((x :: b).take N).length ≤ N := List.length_take_le _ _
    rw [ih _ hlen]
    have e : (x :: xs).reverse ++ b = xs.reverse ++ (x :: b) := by
      rw [List.reverse_cons, List.append_assoc, List.singleton_append]
    rw [e, take_append_take]

/-- Claim C2 (confirmed): the in-memory buffer never exceeds
MAX_DATA_POINTS = 1000 records under any insert sequence; folding a
sequence of distinct-key records through the streamlit insert from an
empty buffer keeps exactly the 1000 most recently inserted records (the
oldest ones are dropped, FIFO by insertion order); and the paradex
appendleft deque keeps exactly the 1000 most recently inserted records
in newest-first order. -/
theorem c2_capacity_invariant :
    (∀ (rs b : List LiquidationRecord), b.length ≤ MAX_DATA_POINTS →
        (rs.foldl insertStreamlitBuf b).length ≤ MAX_DATA_POINTS)
    ∧ (∀ rs : List LiquidationRecord, (rs.map naturalKey).Nodup →
        rs.foldl insertStreamlitBuf [] = rs.drop (rs.length - MAX_DATA_POINTS))
    ∧ (∀ rs : List LiquidationRecord,
        rs.foldl (dequeAppendLeft MAX_DATA_POINTS) [] = rs.reverse.take MAX_DATA_POINTS) := by
  refine ⟨length_foldl_insertStreamlit, ?_, ?_⟩
  · intro rs hnd
    rw [foldl_insert_eq_dequeAppend rs [] hnd (by simp [bufferKeys])]
    rw [foldl_dequeAppend MAX_DATA_POINTS (by decide) rs [] (by simp)]
    rw [List.nil_append]
  · intro rs
    rw [foldl_dequeAppendLeft MAX_DATA_POINTS (by decide) rs [] (by simp)]
    rw [List.append_nil]

/-- Witness for C2 at a concrete input: a single fresh record. -/
theorem c2_witness :
    ([] : List LiquidationRecord).length ≤ MAX_DATA_POINTS
    ∧ ([recC2].foldl insertStreamlitBuf []).length ≤ MAX_DATA_POINTS
    ∧ ([recC2].map naturalKey).Nodup
    ∧ [recC2].foldl insertStreamlitBuf [] = [recC2].drop ([recC2].length - MAX_DATA_POINTS) :=
  ⟨by decide, c2_capacity_invariant.1 [recC2] [] (by decide), by decide,
    c2_capacity_invariant.2.1 [recC2] (by decide)⟩

/-- Claim C1 counterexample: the paradex variant performs no in-memory
dedup.  Processing the very same liquidation message twice issues a
store write both times and leaves two buffered records sharing one
natural key, refuting the claim on src/paradex_dashboard.py
process_liquidation. -/
theorem c1_counterexample :
    (processLiquidationParadex "t0"
        ((processLiquidationParadex "t0" ([], []) msgLiqSample).1) msgLiqSample).2 = true
    ∧ ¬ (bufferKeys ((processLiquidationParadex "t0"
        ((processLiquidationParadex "t0" ([], []) msgLiqSample).1) msgLiqSample).1).1).Nodup := by
  constructor
  · simp [processLiquidationParadex, processParadexMsg, msgLiqSample]
  · simp [processLiquidationParadex, processParadexMsg, msgLiqSample, dequeAppendLeft,
      insertOrIgnore, conflictsWith, bufferKeys, naturalKey, MAX_DATA_POINTS, pyUpper]

/-- Claim C1 as amended: in the streamlit variant, processing a record
whose natural key is already in the buffer is a no-op (buffer and table
unchanged, no store write), and across any sequence of processed records
the buffered natural keys stay pairwise distinct.  The paradex variant
has no in-memory dedup (see the counterexample). -/
theorem c1_dedup_noop_amended :
    (∀ (st : List LiquidationRecord × List LiquidationRecord) (r : LiquidationRecord),
        naturalKey r ∈ bufferKeys st.1 → processStreamlit st r = (st, false))
    ∧ (∀ (rs : List LiquidationRecord)
        (st : List LiquidationRecord × List LiquidationRecord),
        (bufferKeys st.1).Nodup → (bufferKeys (foldProcessStreamlit st rs).1).Nodup) := by
  constructor
  · intro st r h
    rw [processStreamlit, if_pos h]
  · intro rs
    induction rs with
    | nil => intro st h; exact h
    | cons x xs ih =>
      intro st h
      have hstep : (processStreamlit st x).1.1 = insertStreamlitBuf st.1 x := by
        by_cases hc : naturalKey x ∈ bufferKeys st.1
        · rw [processStreamlit, if_pos hc, insertStreamlitBuf, if_pos hc]
        · rw [processStreamlit, if_neg hc, insertStreamlitBuf, if_neg hc]
      have : foldProcessStreamlit st (x :: xs)
          = foldProcessStreamlit ((processStreamlit st x).1) xs := by
        rw [foldProcessStreamlit, List.foldl_cons]; rfl
      rw [this]
      refine ih ((processStreamlit st x).1) ?_
      rw [hstep]
      exact nodup_bufferKeys_insert st.1 x h

/-- Witness for C1 at a concrete input: a buffer already containing the
record being processed. -/
theorem c1_witness :
    naturalKey recInBuf ∈ bufferKeys [recInBuf]
    ∧ processStreamlit ([recInBuf], []) recInBuf = (([recInBuf], []), false)
    ∧ (bufferKeys ((foldProcessStreamlit ([recInBuf], []) [recInBuf]).1)).Nodup :=
  ⟨by decide, c1_dedup_noop_amended.1 ([recInBuf], []) recInBuf (by decide),
    c1_dedup_noop_amended.2 [recInBuf] ([recInBuf], []) (by decide)⟩

/-! Helper lemma for the store insert. -/

theorem conflictsWith_self (r : LiquidationRecord) : conflictsWith r r = true := by
  simp [conflictsWith]

/-- Claim C4 (confirmed): INSERT OR IGNORE is idempotent; inserting the
same record twice is a silent no-op the second time (the model is a
total function, so no exception reaches the caller), and starting from a
table with no conflicting row the two inserts leave exactly one row
matching the record under the uniqueness constraints. -/
theorem c4_store_idempotent :
    ∀ (tbl : List LiquidationRecord) (r : LiquidationRecord),
      insertOrIgnore (insertOrIgnore tbl r) r = insertOrIgnore tbl r
      ∧ (tbl.countP (conflictsWith r) = 0 →
          (insertOrIgnore (insertOrIgnore tbl r) r).countP (conflictsWith r) = 1) := by
  intro tbl r
  by_cases h : tbl.any (conflictsWith r)
  · have e : insertOrIgnore tbl r = tbl := by rw [insertOrIgnore, if_pos h]
    constructor
    · rw [e, e]
    · intro h0
      rcases List.any_eq_true.mp h with ⟨x, hx, hpx⟩
      have := List.countP_eq_zero.mp h0 x hx
      exact absurd hpx this
  · have e1 : insertOrIgnore tbl r = tbl ++ [r] := by rw [insertOrIgnore, if_neg h]
    have h2 : (tbl ++ [r]).any (conflictsWith r) = true := by
      rw [List.any_append]
      simp [conflictsWith_self]
    have e2 : insertOrIgnore (tbl ++ [r]) r = tbl ++ [r] := by
      rw [insertOrIgnore, if_pos h2]
    constructor
    · rw [e1, e2]
    · intro h0
      rw [e1, e2, List.countP_append, h0, List.countP_cons]
      simp [conflictsWith_self, List.countP_nil]

/-- Witness for C4 at a concrete input: the empty table. -/
theorem c4_witness :
    ([] : List LiquidationRecord).countP (conflictsWith recC4) = 0
    ∧ insertOrIgnore (insertOrIgnore [] recC4) recC4 = insertOrIgnore [] recC4
    ∧ (insertOrIgnore (insertOrIgnore [] recC4) recC4).countP (conflictsWith recC4) = 1 :=
  ⟨by decide, (c4_store_idempotent [] recC4).1,
    (c4_store_idempotent [] recC4).2 (by decide)⟩

/-- Claim C5 counterexample: the paradex load query has no time-window
filter and no reversal.  With rows at timestamps 0 and 5000 and a
one-hour window ending at 5000 (cutoff 5000 - 3600 = 1400), the load
returns the stale row as well, and returns the rows newest-first. -/
theorem c5_counterexample :
    loadParadex 1000 [rOld5, rNew5] = [rNew5, rOld5]
    ∧ rOld5.timestamp < 1400
    ∧ rOld5.timestamp < rNew5.timestamp := by
  refine ⟨by decide, by decide, by decide⟩

/-- Claim C5 as amended: the streamlit load returns at most limit
records, every returned record has timestamp at least the cutoff
(now minus the window), and the result is ordered oldest-first, so a
replay into the ring buffer preserves insertion order.  The paradex
variant filters nothing and returns newest-first (see the
counterexample). -/
theorem c5_load_recent_amended :
    ∀ (cutoff limit : ℕ) (tbl : List LiquidationRecord),
      (loadStreamlit cutoff limit tbl).length ≤ limit
      ∧ (∀ r ∈ loadStreamlit cutoff limit tbl, cutoff ≤ r.timestamp)
      ∧ (loadStreamlit cutoff limit tbl).Pairwise
          (fun a b => a.timestamp ≤ b.timestamp) := by
  intro cutoff limit tbl
  have hsub : List.Sublist (loadStreamlit cutoff limit tbl)
      (((List.insertionSort tsDesc
        (tbl.filter (fun r => decide (cutoff ≤ r.timestamp)))).take limit).reverse) :=
    dedupSeen_sublist _ []
  refine ⟨?_, ?_, ?_⟩
  · have h1 := hsub.length_le
    rw [List.length_reverse] at h1
    exact le_trans h1 (List.length_take_le _ _)
  · intro r hr
    have hr1 := hsub.subset hr
    rw [List.mem_reverse] at hr1
    have hr2 := List.take_subset _ _ hr1
    rw [(List.perm_insertionSort tsDesc
      (tbl.filter (fun r => decide (cutoff ≤ r.timestamp)))).mem_iff] at hr2
    exact of_decide_eq_true (List.mem_filter.mp hr2).2
  · have hs := List.sorted_insertionSort tsDesc
      (tbl.filter (fun r => decide (cutoff ≤ r.timestamp)))
    have ht : ((List.insertionSort tsDesc
        (tbl.filter (fun r => decide (cutoff ≤ r.timestamp)))).take limit).Pairwise tsDesc :=
      List.Pairwise.sublist (List.take_sublist _ _) hs
    have hrev : (((List.insertionSort tsDesc
        (tbl.filter (fun r => decide (cutoff ≤ r.timestamp)))).take limit).reverse).Pairwise
        (fun a b => a.timestamp ≤ b.timestamp) := by
      rw [List.pairwise_reverse]
      exact ht.imp (fun h => h)
    exact List.Pairwise.sublist hsub hrev

/-- Witness for C5 at a concrete input: one stored row, cutoff 0,
limit 5. -/
theorem c5_witness :
    rNew5 ∈ loadStreamlit 0 5 [rNew5]
    ∧ 0 ≤ rNew5.timestamp
    ∧ (loadStreamlit 0 5 [rNew5]).length ≤ 5 :=
  ⟨by decide, (c5_load_recent_amended 0 5 [rNew5]).2.1 rNew5 (by decide),
    (c5_load_recent_amended 0 5 [rNew5]).1⟩

/-- Claim C6 counterexample: a liquidation-typed payload with no price
field still yields a record; the price is defaulted to 0 (and hence the
notional value is 0), refuting that no record is produced. -/
theorem c6_counterexample :
    processParadexMsg "t1" msgNoPrice ≠ none
    ∧ (processParadexMsg "t1" msgNoPrice).map LiquidationRecord.price = some 0
    ∧ (processParadexMsg "t1" msgNoPrice).map LiquidationRecord.value = some 0 := by
  refine ⟨?_, ?_, ?_⟩
  · simp [processParadexMsg, msgNoPrice]
  · simp [processParadexMsg, msgNoPrice]
  · simp [processParadexMsg, msgNoPrice]

/-- Claim C6 as amended: a liquidation-typed message always produces a
record (the function is total, so nothing is raised past the normalize
boundary and the receive loop goes on); a missing price is defaulted to
0, making the price and notional value of the produced record 0. -/
theorem c6_missing_price_amended :
    ∀ (now : String) (m : TradeMsg), m.trade_type.getD "" = "liquidation" →
      ∃ r, processParadexMsg now m = some r
        ∧ r.price = m.price.getD 0
        ∧ r.value = m.price.getD 0 * m.size.getD 0
        ∧ (m.price = none → r.price = 0 ∧ r.value = 0) := by
  intro now m h
  rw [processParadexMsg, if_pos h]
  refine ⟨_, rfl, rfl, rfl, ?_⟩
  intro hp
  rw [hp]
  exact ⟨rfl, by simp⟩

/-- Witness for C6 at a concrete input: a fully populated liquidation
payload. -/
theorem c6_witness :
    msgC6w.trade_type.getD "" = "liquidation"
    ∧ ∃ r, processParadexMsg "tw" msgC6w = some r
        ∧ r.price = msgC6w.price.getD 0
        ∧ r.value = msgC6w.price.getD 0 * msgC6w.size.getD 0
        ∧ (msgC6w.price = none → r.price = 0 ∧ r.value = 0) :=
  ⟨by decide, c6_missing_price_amended "tw" msgC6w (by decide)⟩

/-- Claim C7 counterexample: two payloads agreeing on (timestamp,
symbol, side, price, size) — hence on the whole natural-key tuple — but
with different feed-provided ids produce records with different keys, so
the key is not a function of that tuple. -/
theorem c7_counterexample :
    (processParadexMsg "s" msgC7a).map naturalKey
        = (processParadexMsg "s" msgC7b).map naturalKey
    ∧ (processParadexMsg "s" msgC7a).map LiquidationRecord.id
        ≠ (processParadexMsg "s" msgC7b).map LiquidationRecord.id := by
  refine ⟨rfl, ?_⟩
  simp [processParadexMsg, msgC7a, msgC7b]

/-- Claim C7 as amended: the record id of the paradex variant is the
feed-provided id field copied verbatim (empty string when missing),
not an identifier derived from (timestamp, symbol, side, value). -/
theorem c7_natural_key_amended :
    ∀ (now : String) (m : TradeMsg) (r : LiquidationRecord),
      processParadexMsg now m = some r → r.id = m.id.getD "" := by
  intro now m r h
  rw [processParadexMsg] at h
  by_cases hc : m.trade_type.getD "" = "liquidation"
  · rw [if_pos hc] at h
    have e := Option.some.inj h
    rw [← e]
  · rw [if_neg hc] at h
    exact absurd h (by simp)

/-- Witness for C7 at a concrete input. -/
theorem c7_witness :
    processParadexMsg "s" msgC7a = some recC7w
    ∧ recC7w.id = msgC7a.id.getD "" := by
  have h : processParadexMsg "s" msgC7a = some recC7w := by
    simp only [processParadexMsg, msgC7a, recC7w]
    norm_num [pyUpper, Option.getD]
    decide
  exact ⟨h, c7_natural_key_amended "s" msgC7a recC7w h⟩

/-- Claim C3 counterexample: on the three-record snapshot the code ranks
top symbols by trade count (df value_counts), not by total volume, so
the ranking is BTC-USD first, refuting the claimed order
[ETH-USD, BTC-USD]. -/
theorem c3_counterexample :
    ¬ ((calculate_stats threeSnapshot).top_pairs.map Prod.fst
        = ["ETH-USD", "BTC-USD"]) := by
  decide

/-- Claim C3 as amended: on the three-record snapshot the stats are
total count 3, total volume 350, average value 350/3, the side value
counts are BUY 2 and SELL 1 (while the returned longs and shorts fields
look up LONG and SHORT and are therefore 0), and the top symbols are
ranked by trade count descending: [BTC-USD(2), ETH-USD(1)]. -/
theorem c3_stats_scenario_amended :
    calculate_stats threeSnapshot =
      { total_liquidations := 3
        total_volume := 350
        avg_size := 350 / 3
        longs := 0
        shorts := 0
        top_pairs := [("BTC-USD", 2), ("ETH-USD", 1)] }
    ∧ sideValueCount threeSnapshot "BUY" = 2
    ∧ sideValueCount threeSnapshot "SELL" = 1 := by
  refine ⟨?_, by decide, by decide⟩
  rw [calculate_stats, if_neg (by decide)]
  simp only [Stats.mk.injEq]
  refine ⟨by decide, ?_, ?_, by decide, by decide, by decide⟩
  · show (threeSnapshot.map (fun r => r.value)).sum = 350
    simp [threeSnapshot, recBTCbuy3, recBTCsell3, recETHbuy3]
    norm_num
  · show (threeSnapshot.map (fun r => r.value)).sum / (threeSnapshot.length : ℚ) = 350 / 3
    simp [threeSnapshot, recBTCbuy3, recBTCsell3, recETHbuy3]
    norm_num

/-- Claim C8 (confirmed): the stats computation never divides by zero:
the average is 0 on an empty snapshot, and on a nonempty snapshot it
equals total volume divided by total count (equivalently, average times
count gives back the volume). -/
theorem c8_average_no_div_zero :
    ∀ l : List LiquidationRecord,
      ((calculate_stats l).total_liquidations = 0 → (calculate_stats l).avg_size = 0)
      ∧ (0 < (calculate_stats l).total_liquidations →
          (calculate_stats l).avg_size
              = (calculate_stats l).total_volume
                / ((calculate_stats l).total_liquidations : ℚ)
          ∧ (calculate_stats l).avg_size * ((calculate_stats l).total_liquidations : ℚ)
              = (calculate_stats l).total_volume) := by
  intro l
  by_cases h : l.isEmpty = true
  · rw [calculate_stats, if_pos h]
    constructor
    · intro _; rfl
    · intro h0; exact absurd h0 (lt_irrefl 0)
  · rw [calculate_stats, if_neg h]
    have hne : l ≠ [] := by
      intro he
      exact h (by rw [he]; rfl)
    have hl0 : l.length ≠ 0 := by
      intro h0
      exact hne (List.eq_nil_of_length_eq_zero h0)
    constructor
    · intro h0; exact absurd h0 hl0
    · intro _
      refine ⟨rfl, ?_⟩
      exact div_mul_cancel₀ _ (Nat.cast_ne_zero.mpr hl0)

/-- Witness for C8 at a concrete input: a one-record snapshot. -/
theorem c8_witness :
    0 < (calculate_stats [recC8]).total_liquidations
    ∧ (calculate_stats [recC8]).avg_size
        = (calculate_stats [recC8]).total_volume
          / ((calculate_stats [recC8]).total_liquidations : ℚ)
    ∧ (calculate_stats [recC8]).avg_size * ((calculate_stats [recC8]).total_liquidations : ℚ)
        = (calculate_stats [recC8]).total_volume :=
  ⟨by decide, ((c8_average_no_div_zero [recC8]).2 (by decide)).1,
    ((c8_average_no_div_zero [recC8]).2 (by decide)).2⟩

/-! Helper lemma for the stream-client state machine. -/

theorem ws_invariant :
    ∀ s : WSState, WSReachable s →
      (s.connected = true → s.flag = true)
      ∧ (s.point = WSPoint.connecting → s.flag = true)
      ∧ (s.point = WSPoint.streaming → s.flag = true) := by
  intro s h
  induction h with
  | refl =>
    refine ⟨?_, ?_, ?_⟩ <;> intro hx <;> simp [wsInit] at hx
  | tail hab hstep ih =>
    cases hstep with
    | toConnecting f c =>
      exact ⟨fun _ => rfl, fun _ => rfl, fun hp => by simp at hp⟩
    | connectOk f c =>
      have hf : f = true := ih.2.1 rfl
      exact ⟨fun _ => hf, fun hp => by simp at hp, fun _ => hf⟩
    | connectFail f c =>
      exact ⟨fun hcc => by simp at hcc, fun hp => by simp at hp,
        fun hp => by simp at hp⟩
    | recvOk f c => exact ih
    | recvFail f c =>
      exact ⟨fun hcc => by simp at hcc, fun hp => by simp at hp,
        fun hp => by simp at hp⟩
    | wake f c =>
      exact ⟨ih.1, fun hp => by simp at hp, fun hp => by simp at hp⟩

/-- Claim C9 counterexample: set_connection_status(True) runs before
websockets.connect, so after one step from the initial state the client
sits at the connect attempt with the flag already true while no
connection is established — the flag can read true without the client
being connected. -/
theorem c9_counterexample :
    WSReachable ⟨WSPoint.connecting, true, false⟩
    ∧ (⟨WSPoint.connecting, true, false⟩ : WSState).flag = true
    ∧ (⟨WSPoint.connecting, true, false⟩ : WSState).connected = false :=
  ⟨Relation.ReflTransGen.single (WSStep.toConnecting false false), rfl, rfl⟩

/-- Claim C9 as amended: the converse direction holds — in every
reachable state of the connect/stream/reconnect loop, if the client is
actually connected then the observable flag is true; the flag is cleared
only by the except branches after a failure. -/
theorem c9_flag_amended :
    ∀ s : WSState, WSReachable s → s.connected = true → s.flag = true := by
  intro s h hc
  exact (ws_invariant s h).1 hc

/-- Witness for C9 at a concrete reachable state: connected and
streaming after a successful connect. -/
theorem c9_witness :
    WSReachable ⟨WSPoint.streaming, true, true⟩
    ∧ (⟨WSPoint.streaming, true, true⟩ : WSState).connected = true
    ∧ (⟨WSPoint.streaming, true, true⟩ : WSState).flag = true := by
  have hreach : WSReachable ⟨WSPoint.streaming, true, true⟩ :=
    Relation.ReflTransGen.tail
      (Relation.ReflTransGen.single (WSStep.toConnecting false false))
      (WSStep.connectOk true false)
  exact ⟨hreach, rfl, c9_flag_amended ⟨WSPoint.streaming, true, true⟩ hreach rfl⟩

end ParadexDash
